import Mathlib

/-!
Verification development for the UL-Arche-Analyser application core.

The definitions below are a shallow embedding of the Python source:
  * `frame/widget_query.py`   — schedule store (`TwoColumnWidget`): JSON
    persistence (`class_save`, the `__init__` load), table extraction
    (`get_data`).
  * `lib/supervisor.py`       — the `supervisor` decorator.
  * `lib/csv_file_manager.py` — the dataset loader (`load_data`).
  * `frame/widget_result.py`  — the result engine (`WidgetResult.compute`).

Machine floats of the source are modelled as rationals (`ℚ`), pandas
timestamps as integers (`ℤ`) through explicit order-preserving encodings,
and raised Python exceptions as `Except` error values.
-/

namespace ArcheAnalyser

/- ===================================================================== -/
/- Schedule store: JSON document model (`widget_query.py`)               -/
/- ===================================================================== -/

deriving instance DecidableEq for Except

/-- JSON values, restricted to the shapes the schedule document uses:
strings, arrays and objects (an object is an ordered association list,
mirroring Python's insertion-ordered `dict` produced by `json.load`). -/
inductive Json where
  | str : String → Json
  | arr : List Json → Json
  | obj : List (String × Json) → Json

/-- A schedule collection: class name ↦ ordered interval list, each
interval a `(start, end)` pair of raw text (`self.class_info`). -/
abbrev ScheduleColl := List (String × List (String × String))

/-- Serialization performed by `json.dump(self.class_info, f, indent=4)`:
each interval becomes a 2-element array of strings, each class an array
of intervals, the collection an object. -/
def encodeColl (c : ScheduleColl) : Json :=
  .obj (c.map fun e => (e.1, .arr (e.2.map fun p => .arr [.str p.1, .str p.2])))

/-- Decode one persisted interval: a 2-element array of strings. -/
def decodePair : Json → Except String (String × String)
  | .arr [.str s, .str e] => .ok (s, e)
  | _ => .error "malformed interval"

/-- Decode a list of persisted intervals. -/
def decodeIntervalList : List Json → Except String (List (String × String))
  | [] => .ok []
  | j :: js =>
    match decodePair j, decodeIntervalList js with
    | .ok p, .ok ps => .ok (p :: ps)
    | .error e, _ => .error e
    | _, .error e => .error e

/-- Decode the object entries of the persisted document. -/
def decodeEntries : List (String × Json) → Except String ScheduleColl
  | [] => .ok []
  | (k, v) :: rest =>
    match v with
    | .arr js =>
      match decodeIntervalList js, decodeEntries rest with
      | .ok ps, .ok tail => .ok ((k, ps) :: tail)
      | .error e, _ => .error e
      | _, .error e => .error e
    | _ => .error "malformed schedule"

/-- Decode a persisted schedule document (the shape `json.load` hands to
`self.class_info` in `TwoColumnWidget.__init__`). -/
def decodeColl : Json → Except String ScheduleColl
  | .obj entries => decodeEntries entries
  | _ => .error "malformed schedule"

/-- The placeholder empty state `{'': []}` checked by `class_save`. -/
def placeholderColl : ScheduleColl := [("", [])]

/-- `TwoColumnWidget.class_save`, acting on the persisted file modelled
as `Option Json` (`none` = file absent): if the collection is not the
placeholder `{'': []}` the document is (over)written, otherwise the file
is removed when present — removing an absent file and leaving it absent
coincide, so both `os.path.exists` branches yield `none`. -/
def class_save (c : ScheduleColl) (file : Option Json) : Option Json :=
  if c ≠ placeholderColl then some (encodeColl c) else
    match file with
    | some _ => none
    | none => none

/-- The load performed in `TwoColumnWidget.__init__`: read and decode the
file when it exists, otherwise start from the empty collection. -/
def loadColl (file : Option Json) : Except String ScheduleColl :=
  match file with
  | none => .ok []
  | some j => decodeColl j

/- ===================================================================== -/
/- Supervisor decorator (`lib/supervisor.py`)                            -/
/- ===================================================================== -/

/-- Outcome of a supervised call: either the wrapped function's value is
handed back, or the exception's traceback was reported in a message box
and the wrapper returns `None`. There is no third, propagating outcome. -/
inductive SupvResult (ε : Type) (β : Type) where
  | returned : β → SupvResult ε β
  | reported : ε → SupvResult ε β
deriving DecidableEq

/-- The `supervisor` decorator: run the wrapped function inside
`try/except Exception`; on success return its value, on a raised
exception display the traceback and return nothing. -/
def supervisor {α β ε : Type} (f : α → Except ε β) (x : α) : SupvResult ε β :=
  match f x with
  | .ok v => .returned v
  | .error e => .reported e

/- ===================================================================== -/
/- Schedule table extraction (`TwoColumnWidget.get_data`)                -/
/- ===================================================================== -/

/-- The 2-column schedule table: one `(start, end)` cell pair per row; a
cell is `none` when `self.table.item(row, col)` returns `None` (the cell
was never touched). -/
abbrev ScheduleTable := List (Option String × Option String)

/-- `TwoColumnWidget.get_data`: loop over the row range, read each of
the two cells, substituting `""` for an absent item, and append the pair
to the accumulated list. -/
def get_data (t : ScheduleTable) : List (String × String) :=
  (List.range t.length).foldl
    (fun acc row =>
      acc ++ [((t.getD row (none, none)).1.getD "", (t.getD row (none, none)).2.getD "")])
    []

/- ===================================================================== -/
/- Text parsing primitives                                               -/
/- ===================================================================== -/

/-- Numeric value of a digit character. -/
def digitVal (c : Char) : Nat := c.toNat - 48

/-- Value of a digit sequence read left to right (`[] ↦ 0`). -/
def natOfDigits (cs : List Char) : Nat :=
  cs.foldl (fun acc c => acc * 10 + digitVal c) 0

/-- Parse a non-empty all-digit character sequence. -/
def digitsToNat (cs : List Char) : Option Nat :=
  if cs.isEmpty then none
  else if cs.all Char.isDigit then some (natOfDigits cs) else none

/-- Split a character list on a separator character (every occurrence,
keeping empty chunks, like Python's `str.split(sep)`). -/
def splitOnChar (sep : Char) : List Char → List (List Char)
  | [] => [[]]
  | c :: cs =>
    let r := splitOnChar sep cs
    if c = sep then [] :: r
    else
      match r with
      | [] => [[c]]
      | h :: t => (c :: h) :: t

/-- Model of Python's `float()` builtin on non-negative decimal text,
split on the dot: `"15.50"`, `"0"`, `"1."`, `".5"` parse, anything else
(two dots, a non-digit character, the bare `"."`, the empty string) does
not. Exponent, `inf`/`nan`, underscore and whitespace forms accepted by
the real builtin never arise from the score cells this loader feeds it
and are modelled as unparseable. -/
def parseFloatPos (cs : List Char) : Option ℚ :=
  match splitOnChar '.' cs with
  | [ip] => (digitsToNat ip).map (fun n => (n : ℚ))
  | [ip, fp] =>
    if ip.isEmpty && fp.isEmpty then none
    else if ip.all Char.isDigit && fp.all Char.isDigit then
      some ((natOfDigits ip : ℚ) + (natOfDigits fp : ℚ) / (10 : ℚ) ^ fp.length)
    else none
  | _ => none

/-- Model of Python's `float()` builtin: an optional sign followed by
decimal text. -/
def parseFloat (cs : List Char) : Option ℚ :=
  match cs with
  | [] => none
  | c :: rest =>
    if c = '-' then (parseFloatPos rest).map Neg.neg
    else if c = '+' then parseFloatPos rest
    else parseFloatPos (c :: rest)

/-- `lambda x: float(x.replace(',', '.'))` , first half: substitute every
comma with a dot. -/
def replaceComma (s : String) : String :=
  String.mk (s.data.map fun c => if c = ',' then '.' else c)

/-- Score-cell coercion used by the loader on the `"Note/20,00"` column:
substitute the comma with a dot and coerce to float. -/
def parseScoreCell (s : String) : Option ℚ :=
  parseFloat (replaceComma s).data

/-- Order-preserving integer encoding of a calendar datetime (fields
within their calendar ranges), standing in for a pandas `Timestamp`. -/
def encodeDT (y mo d hms : Nat) : Int :=
  (((y * 13 + mo) * 32 + d) * 100000 + hms : Nat)

/-- French month names recognised by `%B` under `fr_FR`. -/
def frenchMonths : List String :=
  ["janvier", "février", "mars", "avril", "mai", "juin",
   "juillet", "août", "septembre", "octobre", "novembre", "décembre"]

/-- Parse a `"HH:MM:SS"` field (`%X` under `fr_FR`). -/
def parseTimeHMS (cs : List Char) : Option Nat :=
  match splitOnChar ':' cs with
  | [h, m, s] =>
    match digitsToNat h, digitsToNat m, digitsToNat s with
    | some hv, some mv, some sv =>
      if hv < 24 && mv < 60 && sv < 60 then some (hv * 3600 + mv * 60 + sv) else none
    | _, _, _ => none
  | _ => none

/-- `pandas.to_datetime(..., format='%d %B %Y %X')` in the French locale
on one cell: day, French month name, year, time, space-separated; any
other shape fails (and `errors='raise'` makes the load raise). -/
def parseFrenchDate (s : String) : Option Int :=
  match splitOnChar ' ' s.data with
  | [d, mon, y, t] =>
    match digitsToNat d, digitsToNat y, parseTimeHMS t with
    | some dv, some yv, some tv =>
      let mi := frenchMonths.indexOf (String.mk mon)
      if mi < frenchMonths.length && 1 ≤ dv && dv ≤ 31 then
        some (encodeDT yv (mi + 1) dv tv)
      else none
    | _, _, _ => none
  | _ => none

/-- pandas' coercion of a text bound to a `Timestamp` when comparing a
string against a `datetime64` column, restricted to the ISO shapes the
schedule table expects (`YYYY-MM-DD`, optionally `HH:MM` or `HH:MM:SS`);
a text outside this shape fails to coerce, which makes the ordered
comparison raise `TypeError`. -/
def parseDT (s : String) : Option Int :=
  let dateOf : List Char → Option (Nat × Nat × Nat) := fun cs =>
    match splitOnChar '-' cs with
    | [y, mo, d] =>
      match digitsToNat y, digitsToNat mo, digitsToNat d with
      | some yv, some mov, some dv =>
        if 1 ≤ mov && mov ≤ 12 && 1 ≤ dv && dv ≤ 31 then some (yv, mov, dv) else none
      | _, _, _ => none
    | _ => none
  let timeOf : List Char → Option Nat := fun cs =>
    match splitOnChar ':' cs with
    | [h, m] =>
      match digitsToNat h, digitsToNat m with
      | some hv, some mv => if hv < 24 && mv < 60 then some (hv * 3600 + mv * 60) else none
      | _, _ => none
    | _ => parseTimeHMS cs
  match splitOnChar ' ' s.data with
  | [dt] => (dateOf dt).map fun p => encodeDT p.1 p.2.1 p.2.2 0
  | [dt, tm] =>
    match dateOf dt, timeOf tm with
    | some p, some tv => some (encodeDT p.1 p.2.1 p.2.2 tv)
    | _, _ => none
  | _ => none

/- ===================================================================== -/
/- Dataset loader (`lib/csv_file_manager.py`, `load_data`)               -/
/- ===================================================================== -/

/-- A DataFrame cell: raw text after `read_csv`, a timestamp after
`to_datetime`, a float after the score coercion. -/
inductive Cell where
  | str : String → Cell
  | dt : Int → Cell
  | num : ℚ → Cell
deriving DecidableEq

/-- The in-memory DataFrame held in `parent.data`: a header and one cell
list per row. -/
structure RawFrame where
  header : List String
  rows : List (List Cell)
deriving DecidableEq

/-- The CSV input handed to `read_csv`: header line plus text rows. -/
structure Csv where
  header : List String
  rows : List (List String)
deriving DecidableEq

/-- Modelled from the spec: `EXPECTED_COLUMNS` lives in
`lib/parameters.py`, which is not part of the provided sources; §6 of
the specification fixes the required column names (last name, first
name, status, started-at, completed-at, score). -/
def EXPECTED_COLUMNS : List String :=
  ["Nom de famille", "Prénom", "Statut", "Commencé", "Terminé", "Note/20,00"]

/-- Typed load failures standing for the exceptions `load_data` raises. -/
inductive LoadError where
  | missingColumns : List String → LoadError
  | dateParse : String → LoadError
  | scoreParse : String → LoadError
deriving DecidableEq

/-- Cells of one column, read the way the converters read them. -/
def colAt (i : Nat) (rows : List (List Cell)) : List Cell :=
  rows.map (·.getD i (.str ""))

/-- `read_csv`: every cell starts out as raw text. -/
def rawFrame (csv : Csv) : RawFrame :=
  ⟨csv.header, csv.rows.map (·.map Cell.str)⟩

/-- Convert the cell at column index `i` of one row (a missing position
behaves as empty text, which the converters reject). -/
def convertCellAt (i : Nat) (conv : Cell → Except LoadError Cell) (r : List Cell) :
    Except LoadError (List Cell) :=
  (conv (r.getD i (.str ""))).map (fun c => r.set i c)

/-- Convert column `i` of every row; the first failing cell aborts the
whole column, mirroring `to_datetime(errors='raise')` / `Series.apply`
computing the full new column before it is assigned. -/
def convertRows (i : Nat) (conv : Cell → Except LoadError Cell) :
    List (List Cell) → Except LoadError (List (List Cell))
  | [] => .ok []
  | r :: rs =>
    match convertCellAt i conv r, convertRows i conv rs with
    | .ok r', .ok rs' => .ok (r' :: rs')
    | .error e, _ => .error e
    | _, .error e => .error e

/-- Column-atomic conversion `parent.data[name] = f(parent.data[name])`:
the assignment happens only if every cell of the new column converted. -/
def convertCol (f : RawFrame) (name : String) (conv : Cell → Except LoadError Cell) :
    Except LoadError RawFrame :=
  (convertRows (f.header.indexOf name) conv f.rows).map (fun rs => ⟨f.header, rs⟩)

/-- Date-cell conversion for the `Commencé` / `Terminé` columns. -/
def dateCellConv (c : Cell) : Except LoadError Cell :=
  match c with
  | .str s =>
    match parseFrenchDate s with
    | some t => .ok (.dt t)
    | none => .error (.dateParse s)
  | .dt t => .ok (.dt t)
  | .num q => .error (.dateParse (toString q))

/-- Score-cell conversion for the `Note/20,00` column. -/
def scoreCellConv (c : Cell) : Except LoadError Cell :=
  match c with
  | .str s =>
    match parseScoreCell s with
    | some q => .ok (.num q)
    | none => .error (.scoreParse s)
  | .dt t => .error (.scoreParse (toString t))
  | .num q => .ok (.num q)

/-- Python's `list.insert`: at `n` when `n` is in range, else appended. -/
def insertAt {α : Type} (n : Nat) (a : α) : List α → List α
  | [] => [a]
  | x :: xs =>
    match n with
    | 0 => a :: x :: xs
    | m + 1 => x :: insertAt m a xs

/-- `removed_col = parent.data.pop(col); parent.data.insert(idx, col,
removed_col)` for one column name. -/
def moveCol (f : RawFrame) (name : String) (idx : Nat) : RawFrame :=
  let i := f.header.indexOf name
  ⟨insertAt idx name (f.header.eraseIdx i),
   f.rows.map fun r => insertAt idx (r.getD i (.str "")) (r.eraseIdx i)⟩

/-- The reorder loop over `zip(list_col, list_idx)`. -/
def reorder (f : RawFrame) : RawFrame :=
  moveCol (moveCol (moveCol (moveCol f "Statut" 2) "Commencé" 3) "Terminé" 4) "Note/20,00" 5

/-- `load_data`: the mutation of `parent.data` step by step.  The result
pairs the final `parent.data` with success or the raised error.  Note
the source assigns `parent.data = read_csv(...)` *before* validating, so
every path — including every failing one — leaves `parent.data` holding
(possibly partially converted) new data, never the prior dataset. -/
def load_data (_prior : Option RawFrame) (csv : Csv) :
    Option RawFrame × Except LoadError Unit :=
  if EXPECTED_COLUMNS.filter (· ∉ csv.header) ≠ [] then
    (some (rawFrame csv), .error (.missingColumns (EXPECTED_COLUMNS.filter (· ∉ csv.header))))
  else
    match convertCol (rawFrame csv) "Commencé" dateCellConv with
    | .error e => (some (rawFrame csv), .error e)
    | .ok f1 =>
      match convertCol f1 "Terminé" dateCellConv with
      | .error e => (some f1, .error e)
      | .ok f2 =>
        match convertCol f2 "Note/20,00" scoreCellConv with
        | .error e => (some f2, .error e)
        | .ok f3 => (some (reorder f3), .ok ())

/- ===================================================================== -/
/- Result engine (`frame/widget_result.py`, `WidgetResult.compute`)      -/
/- ===================================================================== -/

/-- One row of the canonical (successfully loaded) dataset, with the
typed fields `compute` reads. -/
structure Row where
  last : String
  first : String
  status : String
  started : Int
  completed : Int
  note : ℚ
deriving DecidableEq

/-- The canonical dataset together with its column header (checked
defensively by `compute`). -/
structure Frame where
  header : List String
  rows : List Row
deriving DecidableEq

/-- The three labels `compute` places on one grid row for a student. -/
structure ResultRow where
  name : String
  maxText : String
  notesText : String
deriving DecidableEq

/-- Failures `compute` raises (caught at the `supervisor` boundary). -/
inductive ComputeError where
  | noData : ComputeError
  | missingColumns : List String → ComputeError
  | badInterval : String → ComputeError
deriving DecidableEq

/-- The grouping key `(Nom de famille, Prénom)`. -/
def rowKey (r : Row) : String × String := (r.last, r.first)

/-- `f"{name[0]} {name[1]}"`. -/
def renderKey (k : String × String) : String := k.1 ++ " " ++ k.2

/-- Strict lexicographic comparison of character lists by code point —
Python's `<` on strings, which is the tuple order pandas' `groupby`
sorts keys by. -/
def charListLt : List Char → List Char → Bool
  | [], [] => false
  | [], _ :: _ => true
  | _ :: _, [] => false
  | a :: as, b :: bs =>
    if a < b then true
    else if b < a then false
    else charListLt as bs

/-- Strict code-point order on strings. -/
def strLt (s t : String) : Bool := charListLt s.data t.data

/-- Lexicographic (non-strict) order on grouping keys — the ascending
key order pandas' `groupby` iterates. -/
def keyLE (a b : String × String) : Prop :=
  strLt a.1 b.1 = true ∨ (a.1 = b.1 ∧ (strLt a.2 b.2 = true ∨ a.2 = b.2))

instance : DecidableRel keyLE := fun _ _ =>
  inferInstanceAs (Decidable (_ ∨ _))

/-- The distinct grouping keys in the order `groupby` iterates them. -/
def sortedKeys (d : Frame) : List (String × String) :=
  ((d.rows.map rowKey).dedup).insertionSort keyLE

/-- The rows of one student's group, in dataset order. -/
def groupOf (d : Frame) (k : String × String) : List Row :=
  d.rows.filter (fun r => rowKey r = k)

/-- `group.query("Statut == 'Terminée'")`. -/
def completedOf (d : Frame) (k : String × String) : List Row :=
  (groupOf d k).filter (fun r => r.status = "Terminée")

/-- Whether a row falls inside one interval once both bounds coerced:
`started-at ≥ start` and `completed-at ≤ end`; an interval with an
uncoercible bound matches nothing. -/
def matchesIv (p : String × String) (r : Row) : Bool :=
  match parseDT p.1, parseDT p.2 with
  | some ts, some te => decide (ts ≤ r.started ∧ r.completed ≤ te)
  | _, _ => false

/-- The interval loop building `df` by concatenation, with the raise
pandas performs when a bound fails to coerce in an ordered comparison
(start bound compared first). -/
def matchedE (l : List Row) : List (String × String) → Except ComputeError (List Row)
  | [] => .ok []
  | p :: ps =>
    match parseDT p.1 with
    | none => .error (.badInterval p.1)
    | some _ =>
      match parseDT p.2 with
      | none => .error (.badInterval p.2)
      | some _ => (matchedE l ps).map (fun rest => l.filter (matchesIv p) ++ rest)

/-- The matched-row multiset a student ends with when every bound
coerces: the union, interval by interval in stored order, without
deduplication. -/
def matchedTotal (d : Frame) (iv : List (String × String)) (k : String × String) : List Row :=
  iv.flatMap (fun p => (completedOf d k).filter (matchesIv p))

/-- Maximum of two rationals (computable if-form). -/
def qmax (a b : ℚ) : ℚ := if a ≤ b then b else a

/-- `Series.max`: `none` on an empty column (pandas' `NaN`). -/
def maxOf? : List ℚ → Option ℚ
  | [] => none
  | a :: as => some (as.foldl qmax a)

/-- Two-digit zero padding of a value below 100. -/
def pad2 (n : Nat) : String :=
  if n < 10 then "0" ++ toString n else toString n

/-- Python's `f"{v:.2f}"` on a rational: round to two decimal places
(half away from zero on the model's exact rationals — the float
formatting of the source never meets an exact decimal tie) and print
with exactly two fractional digits. -/
def fmt2 (q : ℚ) : String :=
  if ⌊q * 100 + 1 / 2⌋ < 0 then
    "-" ++ toString ((-⌊q * 100 + 1 / 2⌋).toNat / 100)
      ++ "." ++ pad2 ((-⌊q * 100 + 1 / 2⌋).toNat % 100)
  else
    toString ((⌊q * 100 + 1 / 2⌋).toNat / 100)
      ++ "." ++ pad2 ((⌊q * 100 + 1 / 2⌋).toNat % 100)

/-- The three labels built for one student from its matched rows:
max score (empty text unless strictly positive), then the joined
individual notes (empty text when no matched rows). -/
def mkResultRow (k : String × String) (m : List Row) : ResultRow :=
  { name := renderKey k
    maxText :=
      match maxOf? (m.map (·.note)) with
      | none => ""
      | some v => if 0 < v then fmt2 v else ""
    notesText :=
      if (m.map (·.note)).length ≠ 0 then
        String.intercalate ", " (m.map fun r => fmt2 r.note)
      else "" }

/-- The body of the per-student branch of `compute`. -/
def studentRowE (d : Frame) (iv : List (String × String)) (k : String × String) :
    Except ComputeError ResultRow :=
  (matchedE (completedOf d k) iv).map (mkResultRow k)

/-- The loop over student groups: selected students produce a grid row,
unselected ones nothing at all. -/
def computeAux (d : Frame) (sel : List String) (iv : List (String × String)) :
    List (String × String) → Except ComputeError (List ResultRow)
  | [] => .ok []
  | k :: ks =>
    if renderKey k ∈ sel then
      match studentRowE d iv k with
      | .error e => .error e
      | .ok r => (computeAux d sel iv ks).map (fun rest => r :: rest)
    else computeAux d sel iv ks

/-- `WidgetResult.compute`: validate that data is present, re-validate
the expected columns, then walk the student groups. -/
def compute (data : Option Frame) (sel : List String) (iv : List (String × String)) :
    Except ComputeError (List ResultRow) :=
  match data with
  | none => .error .noData
  | some d =>
    if EXPECTED_COLUMNS.all (· ∈ d.header) then computeAux d sel iv (sortedKeys d)
    else .error (.missingColumns (EXPECTED_COLUMNS.filter (· ∉ d.header)))

/-- The maximum of the scores of a matched-row list (meaningful when the
list is non-empty; `0` as a placeholder on the empty list). -/
def maxScore (m : List Row) : ℚ :=
  match m.map (·.note) with
  | [] => 0
  | a :: as => as.foldl qmax a

/- ===================================================================== -/
/- Concrete sample data used by witnesses and counterexamples            -/
/- ===================================================================== -/

/-- A previously loaded canonical dataset (as `parent.data` would hold
after a successful load). -/
def priorLoadedFrame : RawFrame :=
  ⟨EXPECTED_COLUMNS,
   [[.str "Durand", .str "Emma", .str "Terminée", .dt 0, .dt 1, .num 10]]⟩

/-- A small CSV with every required column and well-formed cells. -/
def goodCsv : Csv :=
  ⟨EXPECTED_COLUMNS,
   [["Dupont", "Alice", "Terminée", "12 mars 2024 10:30:00", "12 mars 2024 11:30:00", "15,50"]]⟩

/-- A canonical three-row dataset: two completed rows for one student
(scores 12.5 and 18), one completed row with score 0 for another; the
timestamps sit inside 2024-01-01 .. 2024-01-02 under `parseDT`'s
encoding. -/
def sampleFrame : Frame :=
  ⟨EXPECTED_COLUMNS,
   [⟨"Martin", "Bob", "Terminée", 84201710000, 84201720000, 0⟩,
    ⟨"Dupont", "Alice", "Terminée", 84201710000, 84201720000, 25/2⟩,
    ⟨"Dupont", "Alice", "Terminée", 84201710000, 84201730000, 18⟩]⟩

/-- One valid schedule interval containing the sample rows. -/
def sampleIv : List (String × String) := [("2024-01-01", "2024-01-02")]

/-- Two valid intervals, both containing the sample rows. -/
def sampleIv2 : List (String × String) :=
  [("2024-01-01", "2024-01-02"), ("2024-01-01", "2024-01-03")]




/- ===================================================================== -/
/- Helper lemmas                                                         -/
/- ===================================================================== -/

theorem get_data_foldl (t : ScheduleTable) (l : List Nat) (init : List (String × String)) :
    l.foldl
        (fun acc row =>
          acc ++ [((t.getD row (none, none)).1.getD "", (t.getD row (none, none)).2.getD "")])
        init
      = init ++ l.map
          (fun row =>
            ((t.getD row (none, none)).1.getD "", (t.getD row (none, none)).2.getD "")) := by
  induction l generalizing init with
  | nil => simp
  | cons x xs ih =>
    simp only [List.foldl_cons, List.map_cons]
    rw [ih]
    simp [List.append_assoc]

theorem range_map_getD {α β : Type} (g : α → β) (d : α) (t : List α) :
    (List.range t.length).map (fun i => g (t.getD i d)) = t.map g := by
  induction t with
  | nil => simp
  | cons x xs ih =>
    rw [List.length_cons, List.range_succ_eq_map, List.map_cons, List.map_map]
    simp only [List.getD_cons_zero, Function.comp_def, List.getD_cons_succ]
    rw [ih]
    rfl

theorem decodeIntervalList_encode (l : List (String × String)) :
    decodeIntervalList (l.map fun p => Json.arr [.str p.1, .str p.2]) = .ok l := by
  induction l with
  | nil => rfl
  | cons p ps ih => simp [decodeIntervalList, decodePair, ih]

theorem decodeEntries_encode (c : ScheduleColl) :
    decodeEntries
        (c.map fun e => (e.1, Json.arr (e.2.map fun p => Json.arr [.str p.1, .str p.2])))
      = .ok c := by
  induction c with
  | nil => rfl
  | cons e es ih => simp [decodeEntries, decodeIntervalList_encode, ih]

theorem decode_encode (c : ScheduleColl) : decodeColl (encodeColl c) = .ok c :=
  decodeEntries_encode c

theorem digit_ne_special {c : Char} (h : c.isDigit = true) :
    c ≠ ',' ∧ c ≠ '.' ∧ c ≠ '-' ∧ c ≠ '+' := by
  refine ⟨?_, ?_, ?_, ?_⟩ <;> (intro e; subst e; exact absurd h (by decide))

theorem splitOnChar_sepFree (sep : Char) (l : List Char) (h : ∀ c ∈ l, c ≠ sep) :
    splitOnChar sep l = [l] := by
  induction l with
  | nil => rfl
  | cons c cs ih =>
    have hc : c ≠ sep := h c (.head _)
    have ih' := ih (fun x hx => h x (.tail _ hx))
    simp [splitOnChar, hc, ih']

theorem splitOnChar_append (sep : Char) (l1 l2 : List Char) (h : ∀ c ∈ l1, c ≠ sep) :
    splitOnChar sep (l1 ++ sep :: l2) = l1 :: splitOnChar sep l2 := by
  induction l1 with
  | nil => simp [splitOnChar]
  | cons c cs ih =>
    have hc : c ≠ sep := h c (.head _)
    have ih' := ih (fun x hx => h x (.tail _ hx))
    simp [splitOnChar, hc, ih']

theorem parseScoreCell_comma (a b : String) (ha : a.data ≠ []) (hb : b.data ≠ [])
    (hda : a.data.all Char.isDigit = true) (hdb : b.data.all Char.isDigit = true) :
    parseScoreCell (a ++ "," ++ b)
      = some ((natOfDigits a.data : ℚ)
          + (natOfDigits b.data : ℚ) / (10 : ℚ) ^ b.data.length) := by
  have hdiga : ∀ c ∈ a.data, c.isDigit = true := List.all_eq_true.mp hda
  have hdigb : ∀ c ∈ b.data, c.isDigit = true := List.all_eq_true.mp hdb
  have hdata : (a ++ "," ++ b).data = a.data ++ ',' :: b.data := by
    simp [String.data_append]
  unfold parseScoreCell replaceComma
  rw [hdata]
  have hmapa : a.data.map (fun c => if c = ',' then '.' else c) = a.data :=
    calc a.data.map (fun c => if c = ',' then '.' else c)
        = a.data.map id :=
          List.map_congr_left (fun c hc => if_neg (digit_ne_special (hdiga c hc)).1)
      _ = a.data := List.map_id a.data
  have hmapb : b.data.map (fun c => if c = ',' then '.' else c) = b.data :=
    calc b.data.map (fun c => if c = ',' then '.' else c)
        = b.data.map id :=
          List.map_congr_left (fun c hc => if_neg (digit_ne_special (hdigb c hc)).1)
      _ = b.data := List.map_id b.data
  have hmap : ((a.data ++ ',' :: b.data).map (fun c => if c = ',' then '.' else c))
      = a.data ++ '.' :: b.data := by
    rw [List.map_append, List.map_cons, hmapa, hmapb, if_pos rfl]
  rw [hmap]
  obtain ⟨c, cs, e⟩ := List.exists_cons_of_ne_nil ha
  have hcdig : c.isDigit = true := hdiga c (by rw [e]; exact .head _)
  have hipd : (c :: cs).all Char.isDigit = true := by rw [← e]; exact hda
  have hsplit : splitOnChar '.' ((c :: cs) ++ '.' :: b.data) = [c :: cs, b.data] := by
    rw [splitOnChar_append '.' (c :: cs) b.data
          (fun x hx => (digit_ne_special (hdiga x (by rw [e]; exact hx))).2.1),
        splitOnChar_sepFree '.' b.data (fun x hx => (digit_ne_special (hdigb x hx)).2.1)]
  rw [e, List.cons_append]
  show parseFloat (c :: (cs ++ '.' :: b.data)) = _
  simp only [parseFloat]
  rw [if_neg (digit_ne_special hcdig).2.2.1, if_neg (digit_ne_special hcdig).2.2.2]
  unfold parseFloatPos
  rw [← List.cons_append, hsplit]
  show (if ((c :: cs).isEmpty && b.data.isEmpty) = true then none
        else if ((c :: cs).all Char.isDigit && b.data.all Char.isDigit) = true then
          some ((natOfDigits (c :: cs) : ℚ)
            + (natOfDigits b.data : ℚ) / (10 : ℚ) ^ b.data.length)
        else none)
      = some ((natOfDigits (c :: cs) : ℚ)
          + (natOfDigits b.data : ℚ) / (10 : ℚ) ^ b.data.length)
  rw [if_neg (by simp), if_pos (by simp [hipd, hdb])]

theorem indexOf_ne_of_mem {l : List String} {x y : String} (hx : x ∈ l) (hy : y ∈ l)
    (hxy : x ≠ y) : l.indexOf x ≠ l.indexOf y := by
  intro he
  have h1 : l[l.indexOf x]? = some x := List.getElem?_indexOf hx
  have h2 : l[l.indexOf y]? = some y := List.getElem?_indexOf hy
  rw [he, h2] at h1
  exact hxy (Option.some.inj h1).symm

theorem convertRows_col_pres (i j : Nat) (hij : j ≠ i) (cv : Cell → Except LoadError Cell) :
    ∀ rows rows', convertRows i cv rows = .ok rows' → colAt j rows' = colAt j rows := by
  intro rows
  induction rows with
  | nil =>
    intro rows' h
    simp only [convertRows] at h
    cases h
    rfl
  | cons r rs ih =>
    intro rows' h
    unfold convertRows at h
    split at h
    · rename_i r' rs' h1 h2
      cases h
      have hr : r'.getD j (.str "") = r.getD j (.str "") := by
        unfold convertCellAt at h1
        cases hcv : cv (r.getD i (.str "")) with
        | error e => rw [hcv] at h1; cases h1
        | ok cnew =>
          rw [hcv] at h1
          simp only [Except.map] at h1
          cases h1
          rw [List.getD_eq_getElem?_getD, List.getD_eq_getElem?_getD,
              List.getElem?_set_ne (fun hh => hij hh.symm)]
      show r'.getD j (.str "") :: colAt j rs' = r.getD j (.str "") :: colAt j rs
      rw [hr, ih rs' h2]
    · cases h
    · cases h

theorem convertRows_col_ok (i : Nat) (cv : Cell → Except LoadError Cell) :
    ∀ rows rows', convertRows i cv rows = .ok rows' →
      ∀ s ∈ colAt i rows, ∃ c, cv s = .ok c := by
  intro rows
  induction rows with
  | nil => intro rows' _ s hs; cases hs
  | cons r rs ih =>
    intro rows' h s hs
    have hs' : s = r.getD i (.str "") ∨ s ∈ colAt i rs := List.mem_cons.mp hs
    unfold convertRows at h
    split at h
    · rename_i r' rs' h1 h2
      rcases hs' with hsh | hst
      · unfold convertCellAt at h1
        cases hcv : cv (r.getD i (.str "")) with
        | error e => rw [hcv] at h1; cases h1
        | ok cnew => exact ⟨cnew, by rw [hsh, hcv]⟩
      · exact ih rs' h2 s hst
    · cases h
    · cases h

theorem convertCol_ok (f f' : RawFrame) (n : String) (cv : Cell → Except LoadError Cell)
    (h : convertCol f n cv = .ok f') :
    f'.header = f.header ∧ convertRows (f.header.indexOf n) cv f.rows = .ok f'.rows := by
  unfold convertCol at h
  cases h1 : convertRows (f.header.indexOf n) cv f.rows with
  | error e => rw [h1] at h; cases h
  | ok rs =>
    rw [h1] at h
    simp only [Except.map] at h
    cases h
    exact ⟨rfl, rfl⟩

theorem getD_map_str (r : List String) (i : Nat) :
    (r.map Cell.str).getD i (.str "") = .str (r.getD i "") := by
  rw [List.getD_eq_getElem?_getD, List.getD_eq_getElem?_getD, List.getElem?_map]
  cases r[i]? <;> rfl

theorem colAt_rawFrame (csv : Csv) (i : Nat) :
    colAt i (rawFrame csv).rows = csv.rows.map (fun r => Cell.str (r.getD i "")) := by
  unfold colAt rawFrame
  rw [List.map_map]
  exact List.map_congr_left (fun r _ => getD_map_str r i)

/- ===================================================================== -/
/- Claim theorems: schedule store, supervisor, table extraction, loader  -/
/- ===================================================================== -/

/-- C4: saving a non-placeholder schedule collection then loading
returns an equal collection, and saving the placeholder empty state
deletes the persisted file so a subsequent load returns the empty
collection. -/
theorem schedule_save_load_roundtrip :
    (∀ (c : ScheduleColl) (file : Option Json), c ≠ placeholderColl →
        loadColl (class_save c file) = .ok c) ∧
    (∀ file : Option Json, class_save placeholderColl file = none ∧
        loadColl (class_save placeholderColl file) = .ok []) := by
  constructor
  · intro c file hc
    unfold class_save
    rw [if_pos hc]
    exact decode_encode c
  · intro file
    have h : class_save placeholderColl file = none := by
      unfold class_save
      rw [if_neg (by simp)]
      cases file <;> rfl
    exact ⟨h, by rw [h]; rfl⟩

/-- Witness for C4 at the specification's `Math` example, saved over an
existing file. -/
theorem schedule_save_load_roundtrip_witness :
    ([("Math", [("2024-01-01 00:00", "2024-01-02 00:00")])] : ScheduleColl) ≠ placeholderColl ∧
    loadColl
        (class_save [("Math", [("2024-01-01 00:00", "2024-01-02 00:00")])]
          (some (encodeColl [("Old", [])])))
      = .ok [("Math", [("2024-01-01 00:00", "2024-01-02 00:00")])] :=
  ⟨by decide, schedule_save_load_roundtrip.1 _ _ (by decide)⟩

/-- C9: a supervised boundary operation never propagates an exception:
for every input the outcome is either the wrapped function's value or a
report of the exception it raised — nothing else. -/
theorem supervisor_never_propagates :
    ∀ (α β ε : Type) (f : α → Except ε β) (x : α),
      (∃ v, supervisor f x = .returned v ∧ f x = .ok v) ∨
      (∃ e, supervisor f x = .reported e ∧ f x = .error e) := by
  intro α β ε f x
  cases h : f x with
  | ok v => exact Or.inl ⟨v, by simp [supervisor, h], rfl⟩
  | error e => exact Or.inr ⟨e, by simp [supervisor, h], rfl⟩

/-- C10: `get_data` extracts exactly one `(start, end)` pair of texts
per table row, substituting the empty string for any absent cell, and is
total (one pair per row, for every table state). -/
theorem get_data_total_shape (t : ScheduleTable) :
    get_data t = t.map (fun row => (row.1.getD "", row.2.getD "")) ∧
    (get_data t).length = t.length := by
  have h : get_data t = t.map (fun row => (row.1.getD "", row.2.getD "")) := by
    unfold get_data
    rw [get_data_foldl, List.nil_append]
    exact range_map_getD (fun row => (row.1.getD "", row.2.getD "")) (none, none) t
  exact ⟨h, by rw [h, List.length_map]⟩

/-- C5: when the set of required columns missing from the CSV header is
non-empty, the load fails naming exactly that missing set and leaves the
raw frame untouched by any later conversion step — regardless of what
the date or score cells contain. -/
theorem load_missing_columns_first (prior : Option RawFrame) (csv : Csv)
    (h : EXPECTED_COLUMNS.filter (· ∉ csv.header) ≠ []) :
    load_data prior csv =
      (some (rawFrame csv),
       .error (.missingColumns (EXPECTED_COLUMNS.filter (· ∉ csv.header)))) := by
  unfold load_data
  rw [if_pos h]

/-- Witness for C5: a header containing only the last-name column. -/
theorem load_missing_columns_first_witness :
    (EXPECTED_COLUMNS.filter (· ∉ (⟨["Nom de famille"], []⟩ : Csv).header) ≠ []) ∧
    load_data (some priorLoadedFrame) ⟨["Nom de famille"], []⟩ =
      (some (rawFrame ⟨["Nom de famille"], []⟩),
       .error (.missingColumns
         (EXPECTED_COLUMNS.filter (· ∉ (⟨["Nom de famille"], []⟩ : Csv).header)))) :=
  ⟨by decide, load_missing_columns_first (some priorLoadedFrame) _ (by decide)⟩

/-- C2 counterexample: a load that fails (missing columns) does NOT
leave the previously loaded dataset untouched — `parent.data` already
holds the newly read raw frame when the error is raised. -/
theorem load_failure_mutates_counterexample :
    (load_data (some priorLoadedFrame) ⟨["x"], []⟩).2
        = .error (.missingColumns EXPECTED_COLUMNS) ∧
    (load_data (some priorLoadedFrame) ⟨["x"], []⟩).1 ≠ some priorLoadedFrame := by
  decide

/-- C2 amended: `load_data` never reads the previously loaded dataset —
the post-call `parent.data` is determined by the new CSV alone, and on
every path (success or failure) it holds data derived from the new CSV,
so a failing load discards the prior dataset instead of preserving
it. -/
theorem load_overwrites_regardless_of_prior (prior : Option RawFrame) (csv : Csv) :
    (load_data prior csv).1 = (load_data none csv).1 ∧
    ((load_data prior csv).1).isSome = true := by
  refine ⟨rfl, ?_⟩
  unfold load_data
  split
  · rfl
  · split
    · rfl
    · split
      · rfl
      · split <;> rfl


/- ===================================================================== -/
/- Result engine lemmas                                                  -/
/- ===================================================================== -/

theorem string_data_eq {s t : String} (h : s.data = t.data) : s = t := by
  cases s
  cases t
  cases h
  rfl

theorem charListLt_trans : ∀ a b c, charListLt a b = true → charListLt b c = true →
    charListLt a c = true := by
  intro a
  induction a with
  | nil =>
    intro b c hab hbc
    cases b with
    | nil => cases hab
    | cons y ys =>
      cases c with
      | nil => cases hbc
      | cons z zs => rfl
  | cons x xs ih =>
    intro b c hab hbc
    cases b with
    | nil => cases hab
    | cons y ys =>
      cases c with
      | nil => cases hbc
      | cons z zs =>
        rcases lt_trichotomy x y with hxy | hxy | hxy
        · rcases lt_trichotomy y z with hyz | hyz | hyz
          · simp [charListLt, lt_trans hxy hyz]
          · subst hyz; simp [charListLt, hxy]
          · simp [charListLt, lt_asymm hyz, hyz] at hbc
        · subst hxy
          simp only [charListLt, lt_irrefl, if_false] at hab
          rcases lt_trichotomy x z with hxz | hxz | hxz
          · simp [charListLt, hxz]
          · subst hxz
            simp only [charListLt, lt_irrefl, if_false] at hbc ⊢
            exact ih _ _ hab hbc
          · simp [charListLt, lt_asymm hxz, hxz] at hbc
        · simp [charListLt, lt_asymm hxy, hxy] at hab

theorem charListLt_trichotomy : ∀ a b, charListLt a b = true ∨ a = b ∨ charListLt b a = true := by
  intro a
  induction a with
  | nil =>
    intro b
    cases b with
    | nil => exact Or.inr (Or.inl rfl)
    | cons y ys => exact Or.inl rfl
  | cons x xs ih =>
    intro b
    cases b with
    | nil => exact Or.inr (Or.inr rfl)
    | cons y ys =>
      rcases lt_trichotomy x y with h | h | h
      · exact Or.inl (by simp [charListLt, h])
      · subst h
        rcases ih ys with h2 | h2 | h2
        · exact Or.inl (by simp [charListLt, lt_irrefl, h2])
        · exact Or.inr (Or.inl (by rw [h2]))
        · exact Or.inr (Or.inr (by simp [charListLt, lt_irrefl, h2]))
      · exact Or.inr (Or.inr (by simp [charListLt, h]))

theorem keyLE_total : ∀ a b : String × String, keyLE a b ∨ keyLE b a := by
  intro a b
  rcases charListLt_trichotomy a.1.data b.1.data with h | h | h
  · exact Or.inl (Or.inl h)
  · have he : a.1 = b.1 := string_data_eq h
    rcases charListLt_trichotomy a.2.data b.2.data with h2 | h2 | h2
    · exact Or.inl (Or.inr ⟨he, Or.inl h2⟩)
    · exact Or.inl (Or.inr ⟨he, Or.inr (string_data_eq h2)⟩)
    · exact Or.inr (Or.inr ⟨he.symm, Or.inl h2⟩)
  · exact Or.inr (Or.inl h)

theorem keyLE_trans : ∀ a b c : String × String, keyLE a b → keyLE b c → keyLE a c := by
  intro a b c hab hbc
  rcases hab with h1 | ⟨e1, i1⟩
  · rcases hbc with h2 | ⟨e2, _⟩
    · exact Or.inl (charListLt_trans _ _ _ h1 h2)
    · exact Or.inl (e2 ▸ h1)
  · rcases hbc with h2 | ⟨e2, i2⟩
    · exact Or.inl (e1.symm ▸ h2)
    · refine Or.inr ⟨e1.trans e2, ?_⟩
      rcases i1 with il | ie
      · rcases i2 with jl | je
        · exact Or.inl (charListLt_trans _ _ _ il jl)
        · exact Or.inl (je ▸ il)
      · rcases i2 with jl | je
        · exact Or.inl (ie.symm ▸ jl)
        · exact Or.inr (ie.trans je)

theorem matchedE_ok_eq (l : List Row) :
    ∀ (ps : List (String × String)) m, matchedE l ps = .ok m →
      m = ps.flatMap (fun p => l.filter (matchesIv p)) := by
  intro ps
  induction ps with
  | nil =>
    intro m h
    simp only [matchedE] at h
    cases h
    rfl
  | cons p ps ih =>
    intro m h
    unfold matchedE at h
    split at h
    · cases h
    · split at h
      · cases h
      · cases hr : matchedE l ps with
        | error e => rw [hr] at h; cases h
        | ok rest =>
          rw [hr] at h
          simp only [Except.map] at h
          cases h
          rw [List.flatMap_cons, ih rest hr]

theorem matchedE_err (l : List Row) :
    ∀ ps, (∃ p ∈ ps, parseDT p.1 = none ∨ parseDT p.2 = none) →
      ∃ s, matchedE l ps = .error (.badInterval s) ∧ parseDT s = none := by
  intro ps
  induction ps with
  | nil => rintro ⟨p, hp, _⟩; cases hp
  | cons p ps ih =>
    rintro ⟨q, hq, hbad⟩
    rcases List.mem_cons.mp hq with rfl | hq'
    · cases h1 : parseDT q.1 with
      | none => exact ⟨q.1, by unfold matchedE; rw [h1], h1⟩
      | some t1 =>
        rcases hbad with hb1 | hb2
        · rw [h1] at hb1; cases hb1
        · exact ⟨q.2, by unfold matchedE; rw [h1, hb2], hb2⟩
    · cases h1 : parseDT p.1 with
      | none => exact ⟨p.1, by unfold matchedE; rw [h1], h1⟩
      | some t1 =>
        cases h2 : parseDT p.2 with
        | none => exact ⟨p.2, by unfold matchedE; rw [h1, h2], h2⟩
        | some t2 =>
          obtain ⟨s, hs, hsn⟩ := ih ⟨q, hq', hbad⟩
          exact ⟨s, by unfold matchedE; rw [h1, h2, hs]; rfl, hsn⟩

theorem studentRowE_ok (d : Frame) (iv : List (String × String)) (k : String × String)
    (r : ResultRow) (h : studentRowE d iv k = .ok r) :
    r = mkResultRow k (matchedTotal d iv k) := by
  unfold studentRowE at h
  cases hm : matchedE (completedOf d k) iv with
  | error e => rw [hm] at h; cases h
  | ok m =>
    rw [hm] at h
    simp only [Except.map] at h
    cases h
    rw [matchedE_ok_eq _ _ _ hm]
    rfl

theorem computeAux_ok_eq (d : Frame) (sel : List String) (iv : List (String × String)) :
    ∀ ks rows, computeAux d sel iv ks = .ok rows →
      rows = (ks.filter (fun k => decide (renderKey k ∈ sel))).map
          (fun k => mkResultRow k (matchedTotal d iv k)) := by
  intro ks
  induction ks with
  | nil =>
    intro rows h
    simp only [computeAux] at h
    cases h
    rfl
  | cons k ks ih =>
    intro rows h
    unfold computeAux at h
    by_cases hsel : renderKey k ∈ sel
    · rw [if_pos hsel] at h
      cases hr : studentRowE d iv k with
      | error e => rw [hr] at h; cases h
      | ok r =>
        rw [hr] at h
        cases ha : computeAux d sel iv ks with
        | error e => rw [ha] at h; cases h
        | ok rest =>
          rw [ha] at h
          simp only [Except.map] at h
          cases h
          rw [List.filter_cons_of_pos (by simpa using hsel), List.map_cons,
              ← ih rest ha, studentRowE_ok d iv k r hr]
    · rw [if_neg hsel] at h
      rw [List.filter_cons_of_neg (by simpa using hsel)]
      exact ih rows h

theorem compute_ok_eq (d : Frame) (sel : List String) (iv : List (String × String))
    (rows : List ResultRow) (h : compute (some d) sel iv = .ok rows) :
    rows = ((sortedKeys d).filter (fun k => decide (renderKey k ∈ sel))).map
        (fun k => mkResultRow k (matchedTotal d iv k)) := by
  have hco : compute (some d) sel iv
      = (if EXPECTED_COLUMNS.all (· ∈ d.header) then computeAux d sel iv (sortedKeys d)
         else .error (.missingColumns (EXPECTED_COLUMNS.filter (· ∉ d.header)))) := rfl
  rw [hco] at h
  by_cases hc : EXPECTED_COLUMNS.all (· ∈ d.header) = true
  · rw [if_pos hc] at h
    exact computeAux_ok_eq d sel iv _ rows h
  · rw [if_neg hc] at h
    cases h

theorem compute_row_at (d : Frame) (sel : List String) (iv : List (String × String))
    (rows : List ResultRow) (h : compute (some d) sel iv = .ok rows)
    (i : Nat) (r : ResultRow) (hr : rows[i]? = some r) (k : String × String)
    (hk : ((sortedKeys d).filter (fun k => decide (renderKey k ∈ sel)))[i]? = some k) :
    r = mkResultRow k (matchedTotal d iv k) := by
  rw [compute_ok_eq d sel iv rows h, List.getElem?_map, hk] at hr
  exact (Option.some.inj hr).symm

theorem maxOf?_map_note (m : List Row) :
    maxOf? (m.map (·.note)) = if m = [] then none else some (maxScore m) := by
  cases m with
  | nil => rfl
  | cons r rs => simp [maxOf?, maxScore]

theorem fmt2_ne_empty (q : ℚ) : fmt2 q ≠ "" := by
  have hdot : ("." : String).length = 1 := rfl
  have hdash : ("-" : String).length = 1 := rfl
  have hempty : ("" : String).length = 0 := rfl
  unfold fmt2
  split
  · intro h
    have hl := congrArg String.length h
    simp only [String.length_append] at hl
    rw [hdot, hdash, hempty] at hl
    omega
  · intro h
    have hl := congrArg String.length h
    simp only [String.length_append] at hl
    rw [hdot, hempty] at hl
    omega

theorem mkResultRow_maxText (k : String × String) (m : List Row) :
    (mkResultRow k m).maxText
      = (if m = [] ∨ maxScore m ≤ 0 then "" else fmt2 (maxScore m)) := by
  show (match maxOf? (m.map (·.note)) with
        | none => ""
        | some v => if 0 < v then fmt2 v else "") = _
  rw [maxOf?_map_note]
  by_cases hm : m = []
  · simp [hm]
  · rw [if_neg hm]
    by_cases hs : 0 < maxScore m
    · show (if 0 < maxScore m then fmt2 (maxScore m) else "") = _
      rw [if_pos hs, if_neg (by rw [not_or]; exact ⟨hm, not_le.mpr hs⟩)]
    · show (if 0 < maxScore m then fmt2 (maxScore m) else "") = _
      rw [if_neg hs, if_pos (Or.inr (not_lt.mp hs))]

theorem mkResultRow_notesText (k : String × String) (m : List Row) :
    (mkResultRow k m).notesText
      = String.intercalate ", " (m.map fun row => fmt2 row.note) := by
  show (if (m.map (·.note)).length ≠ 0 then
          String.intercalate ", " (m.map fun row => fmt2 row.note)
        else "") = _
  cases m with
  | nil => rfl
  | cons r rs => rw [if_pos (by simp)]

theorem count_flatMap_filter (ivs : List (String × String)) (l : List Row) (a : Row) :
    (ivs.flatMap (fun p => l.filter (matchesIv p))).count a
      = (ivs.countP (fun p => matchesIv p a)) * l.count a := by
  induction ivs with
  | nil => simp
  | cons p ps ih =>
    rw [List.flatMap_cons, List.count_append, ih, List.countP_cons]
    by_cases hp : matchesIv p a = true
    · rw [List.count_filter hp, if_pos hp]
      ring
    · have hnot : a ∉ l.filter (matchesIv p) := by
        intro hmem
        exact hp (List.of_mem_filter hmem)
      rw [List.count_eq_zero.mpr hnot, if_neg hp]
      ring

/- ===================================================================== -/
/- Claim theorems: result engine                                         -/
/- ===================================================================== -/

unseal Rat.mul Rat.add Rat.inv in
/-- C1 counterexample: an interval with unparseable start text does NOT
contribute zero rows and let the computation continue — with a selected
student present, the whole `compute` aborts with the coercion error even
though a second, valid interval matches rows. -/
theorem compute_bad_interval_counterexample :
    compute (some sampleFrame) ["Dupont Alice"]
        [("garbage", "2024-01-02 00:00"), ("2024-01-01", "2024-01-02")]
      = .error (.badInterval "garbage") := by
  decide

/-- C1 (amended): whenever the dataset passes the column checks, some
selected student exists and some interval bound fails to coerce, the
whole computation aborts with that coercion error (reported at the
supervisor boundary) — no interval, valid or not, produces any result. -/
theorem compute_bad_interval_aborts (d : Frame) (sel : List String)
    (iv : List (String × String))
    (hcols : EXPECTED_COLUMNS.all (· ∈ d.header) = true)
    (hsel : ∃ k ∈ sortedKeys d, renderKey k ∈ sel)
    (hbad : ∃ p ∈ iv, parseDT p.1 = none ∨ parseDT p.2 = none) :
    ∃ s, compute (some d) sel iv = .error (.badInterval s) ∧ parseDT s = none := by
  have aux : ∀ ks : List (String × String), (∃ k ∈ ks, renderKey k ∈ sel) →
      ∃ s, computeAux d sel iv ks = .error (.badInterval s) ∧ parseDT s = none := by
    intro ks
    induction ks with
    | nil => rintro ⟨k, hk, _⟩; cases hk
    | cons k ks ih =>
      rintro ⟨k', hk', hsel'⟩
      by_cases hs : renderKey k ∈ sel
      · obtain ⟨s, hs1, hs2⟩ := matchedE_err (completedOf d k) iv hbad
        have hst : studentRowE d iv k = .error (.badInterval s) := by
          unfold studentRowE
          rw [hs1]
          rfl
        refine ⟨s, ?_, hs2⟩
        unfold computeAux
        rw [if_pos hs, hst]
      · rcases List.mem_cons.mp hk' with rfl | htail
        · exact absurd hsel' hs
        · obtain ⟨s, hs1, hs2⟩ := ih ⟨k', htail, hsel'⟩
          refine ⟨s, ?_, hs2⟩
          unfold computeAux
          rw [if_neg hs, hs1]
  obtain ⟨s, hs1, hs2⟩ := aux (sortedKeys d) hsel
  have hco : compute (some d) sel iv
      = (if EXPECTED_COLUMNS.all (· ∈ d.header) then computeAux d sel iv (sortedKeys d)
         else .error (.missingColumns (EXPECTED_COLUMNS.filter (· ∉ d.header)))) := rfl
  exact ⟨s, by rw [hco, if_pos hcols, hs1], hs2⟩

unseal Rat.mul Rat.add Rat.inv in
/-- Witness for the amended C1: the sample dataset with one selected
student, one garbage interval and one valid interval. -/
theorem compute_bad_interval_aborts_witness :
    EXPECTED_COLUMNS.all (· ∈ sampleFrame.header) = true ∧
    (∃ s, compute (some sampleFrame) ["Dupont Alice"]
        [("garbage", "2024-01-02 00:00"), ("2024-01-01", "2024-01-02")]
      = .error (.badInterval s) ∧ parseDT s = none) :=
  ⟨by decide,
   compute_bad_interval_aborts sampleFrame ["Dupont Alice"]
     [("garbage", "2024-01-02 00:00"), ("2024-01-01", "2024-01-02")]
     (by decide)
     ⟨("Dupont", "Alice"), by decide, by decide⟩
     ⟨("garbage", "2024-01-02 00:00"), by decide, Or.inl (by decide)⟩⟩

/-- C7: whenever `compute` succeeds, its output holds exactly one
`ResultRow` per selected student, in the deterministic grouping order:
the distinct `(last, first)` keys sorted lexicographically (`sortedKeys`
is sorted, duplicate-free and spans exactly the dataset's keys), and the
output name sequence is that key order restricted to the selection. -/
theorem compute_selection_order (d : Frame) (sel : List String)
    (iv : List (String × String)) (rows : List ResultRow)
    (h : compute (some d) sel iv = .ok rows) :
    rows.map (·.name)
        = ((sortedKeys d).filter (fun k => decide (renderKey k ∈ sel))).map renderKey ∧
    List.Sorted keyLE (sortedKeys d) ∧
    (sortedKeys d).Nodup ∧
    (∀ k, k ∈ sortedKeys d ↔ k ∈ d.rows.map rowKey) := by
  refine ⟨?_, ?_, ?_, ?_⟩
  · rw [compute_ok_eq d sel iv rows h, List.map_map]
    exact List.map_congr_left (fun k _ => rfl)
  · haveI : IsTotal (String × String) keyLE := ⟨keyLE_total⟩
    haveI : IsTrans (String × String) keyLE := ⟨keyLE_trans⟩
    exact List.sorted_insertionSort keyLE _
  · exact ((List.perm_insertionSort keyLE _).nodup_iff).mpr (List.nodup_dedup _)
  · intro k
    unfold sortedKeys
    rw [List.mem_insertionSort, List.mem_dedup]

unseal Rat.mul Rat.add Rat.inv in
/-- Witness for C7: with only one of the two sample students selected,
the output holds exactly that student's row. -/
theorem compute_selection_order_witness :
    compute (some sampleFrame) ["Dupont Alice"] sampleIv
        = .ok [⟨"Dupont Alice", "18.00", "12.50, 18.00"⟩] ∧
    (([⟨"Dupont Alice", "18.00", "12.50, 18.00"⟩] : List ResultRow).map (·.name)
        = ((sortedKeys sampleFrame).filter
            (fun k => decide (renderKey k ∈ ["Dupont Alice"]))).map renderKey ∧
      List.Sorted keyLE (sortedKeys sampleFrame) ∧
      (sortedKeys sampleFrame).Nodup ∧
      (∀ k, k ∈ sortedKeys sampleFrame ↔ k ∈ sampleFrame.rows.map rowKey)) :=
  ⟨by decide, compute_selection_order sampleFrame _ sampleIv _ (by decide)⟩

/-- C3: in a successful `compute`, the max-score label of the row at any
output position is the empty "no data" marker exactly when that
student's matched-row set is empty or its maximum score is ≤ 0, and is
the two-decimal rendering of the maximum otherwise. -/
theorem compute_max_rendering (d : Frame) (sel : List String)
    (iv : List (String × String)) (rows : List ResultRow)
    (h : compute (some d) sel iv = .ok rows)
    (i : Nat) (r : ResultRow) (hr : rows[i]? = some r) (k : String × String)
    (hk : ((sortedKeys d).filter (fun k => decide (renderKey k ∈ sel)))[i]? = some k) :
    r.maxText
        = (if matchedTotal d iv k = [] ∨ maxScore (matchedTotal d iv k) ≤ 0 then ""
           else fmt2 (maxScore (matchedTotal d iv k))) ∧
    (r.maxText = "" ↔ (matchedTotal d iv k = [] ∨ maxScore (matchedTotal d iv k) ≤ 0)) := by
  have heq := compute_row_at d sel iv rows h i r hr k hk
  subst heq
  refine ⟨mkResultRow_maxText k _, ?_⟩
  rw [mkResultRow_maxText k _]
  by_cases hcond : (matchedTotal d iv k = [] ∨ maxScore (matchedTotal d iv k) ≤ 0)
  · simp [hcond]
  · rw [if_neg hcond]
    constructor
    · intro habs
      exact absurd habs (fmt2_ne_empty _)
    · intro habs
      exact absurd habs hcond

unseal Rat.mul Rat.add Rat.inv in
/-- Witness for C3: the sample student whose only matched score is 0
renders the empty marker, not "0.00". -/
theorem compute_max_rendering_witness :
    compute (some sampleFrame) ["Dupont Alice", "Martin Bob"] sampleIv
        = .ok [⟨"Dupont Alice", "18.00", "12.50, 18.00"⟩, ⟨"Martin Bob", "", "0.00"⟩] ∧
    ([⟨"Dupont Alice", "18.00", "12.50, 18.00"⟩,
      (⟨"Martin Bob", "", "0.00"⟩ : ResultRow)][1]? = some ⟨"Martin Bob", "", "0.00"⟩) ∧
    ((sortedKeys sampleFrame).filter
        (fun k => decide (renderKey k ∈ ["Dupont Alice", "Martin Bob"])))[1]?
      = some ("Martin", "Bob") ∧
    ((⟨"Martin Bob", "", "0.00"⟩ : ResultRow).maxText
        = (if matchedTotal sampleFrame sampleIv ("Martin", "Bob") = []
              ∨ maxScore (matchedTotal sampleFrame sampleIv ("Martin", "Bob")) ≤ 0 then ""
           else fmt2 (maxScore (matchedTotal sampleFrame sampleIv ("Martin", "Bob")))) ∧
     ((⟨"Martin Bob", "", "0.00"⟩ : ResultRow).maxText = ""
        ↔ (matchedTotal sampleFrame sampleIv ("Martin", "Bob") = []
            ∨ maxScore (matchedTotal sampleFrame sampleIv ("Martin", "Bob")) ≤ 0))) :=
  ⟨by decide, by decide, by decide,
   compute_max_rendering sampleFrame ["Dupont Alice", "Martin Bob"] sampleIv
     [⟨"Dupont Alice", "18.00", "12.50, 18.00"⟩, ⟨"Martin Bob", "", "0.00"⟩]
     (by decide) 1 ⟨"Martin Bob", "", "0.00"⟩ (by decide) ("Martin", "Bob") (by decide)⟩

/-- C8: in a successful `compute`, each output row's notes label lists
the matched rows' scores, two-decimal formatted, in encounter order over
the interval-by-interval union, and a dataset row is matched once per
completed occurrence and per matching interval (duplicates preserved,
no deduplication). -/
theorem compute_union_duplicates (d : Frame) (sel : List String)
    (iv : List (String × String)) (rows : List ResultRow)
    (h : compute (some d) sel iv = .ok rows)
    (i : Nat) (r : ResultRow) (hr : rows[i]? = some r) (k : String × String)
    (hk : ((sortedKeys d).filter (fun k => decide (renderKey k ∈ sel)))[i]? = some k) :
    r.notesText
        = String.intercalate ", " ((matchedTotal d iv k).map fun row => fmt2 row.note) ∧
    (∀ row : Row, (matchedTotal d iv k).count row
        = (iv.countP (fun p => matchesIv p row)) * ((completedOf d k).count row)) := by
  have heq := compute_row_at d sel iv rows h i r hr k hk
  subst heq
  exact ⟨mkResultRow_notesText k _, fun row => count_flatMap_filter iv (completedOf d k) row⟩

unseal Rat.mul Rat.add Rat.inv in
/-- Witness for C8: with two valid intervals both containing the sample
rows, each matched row appears twice and its score is listed twice. -/
theorem compute_union_duplicates_witness :
    compute (some sampleFrame) ["Dupont Alice"] sampleIv2
        = .ok [⟨"Dupont Alice", "18.00", "12.50, 18.00, 12.50, 18.00"⟩] ∧
    ([(⟨"Dupont Alice", "18.00", "12.50, 18.00, 12.50, 18.00"⟩ : ResultRow)][0]?
        = some ⟨"Dupont Alice", "18.00", "12.50, 18.00, 12.50, 18.00"⟩) ∧
    ((sortedKeys sampleFrame).filter
        (fun k => decide (renderKey k ∈ ["Dupont Alice"])))[0]?
      = some ("Dupont", "Alice") ∧
    ((⟨"Dupont Alice", "18.00", "12.50, 18.00, 12.50, 18.00"⟩ : ResultRow).notesText
        = String.intercalate ", "
            ((matchedTotal sampleFrame sampleIv2 ("Dupont", "Alice")).map
              fun row => fmt2 row.note) ∧
     (∀ row : Row, (matchedTotal sampleFrame sampleIv2 ("Dupont", "Alice")).count row
        = (sampleIv2.countP (fun p => matchesIv p row))
            * ((completedOf sampleFrame ("Dupont", "Alice")).count row))) :=
  ⟨by decide, by decide, by decide,
   compute_union_duplicates sampleFrame ["Dupont Alice"] sampleIv2
     [⟨"Dupont Alice", "18.00", "12.50, 18.00, 12.50, 18.00"⟩]
     (by decide) 0 ⟨"Dupont Alice", "18.00", "12.50, 18.00, 12.50, 18.00"⟩ (by decide)
     ("Dupont", "Alice") (by decide)⟩

theorem scoreCellConv_str_ok {s : String} {c : Cell}
    (h : scoreCellConv (.str s) = .ok c) : (parseScoreCell s).isSome = true := by
  have h' : (match parseScoreCell s with
      | some q => Except.ok (Cell.num q)
      | none => Except.error (LoadError.scoreParse s)) = Except.ok c := h
  cases hp : parseScoreCell s with
  | none => rw [hp] at h'; cases h'
  | some q => rfl

theorem score_fail_aborts (prior : Option RawFrame) (csv : Csv)
    (hok : (load_data prior csv).2 = .ok ()) :
    ∀ r ∈ csv.rows,
      (parseScoreCell (r.getD (csv.header.indexOf "Note/20,00") "")).isSome = true := by
  intro r hrmem
  unfold load_data at hok
  by_cases hm : EXPECTED_COLUMNS.filter (· ∉ csv.header) ≠ []
  · rw [if_pos hm] at hok; cases hok
  · rw [if_neg hm] at hok
    have hm' : EXPECTED_COLUMNS.filter (· ∉ csv.header) = [] := not_not.mp hm
    have hmem : ∀ x ∈ EXPECTED_COLUMNS, x ∈ csv.header := by
      intro x hx
      by_contra hnx
      have hxf : x ∈ EXPECTED_COLUMNS.filter (· ∉ csv.header) :=
        List.mem_filter.mpr ⟨hx, decide_eq_true hnx⟩
      rw [hm'] at hxf
      cases hxf
    split at hok
    · simp at hok
    · rename_i f1 h1
      split at hok
      · simp at hok
      · rename_i f2 h2
        split at hok
        · simp at hok
        · rename_i f3 h3
          obtain ⟨e1h, hr1⟩ := convertCol_ok _ _ _ _ h1
          obtain ⟨e2h, hr2⟩ := convertCol_ok _ _ _ _ h2
          obtain ⟨e3h, hr3⟩ := convertCol_ok _ _ _ _ h3
          have hf1 : f1.header = csv.header := e1h
          have hf2 : f2.header = csv.header := by rw [e2h, hf1]
          rw [hf1] at hr2
          rw [hf2] at hr3
          have hNmem : "Note/20,00" ∈ csv.header := hmem _ (by decide)
          have hCmem : "Commencé" ∈ csv.header := hmem _ (by decide)
          have hTmem : "Terminé" ∈ csv.header := hmem _ (by decide)
          have hNC : csv.header.indexOf "Note/20,00" ≠ csv.header.indexOf "Commencé" :=
            indexOf_ne_of_mem hNmem hCmem (by decide)
          have hNT : csv.header.indexOf "Note/20,00" ≠ csv.header.indexOf "Terminé" :=
            indexOf_ne_of_mem hNmem hTmem (by decide)
          have p1 : colAt (csv.header.indexOf "Note/20,00") f1.rows
              = colAt (csv.header.indexOf "Note/20,00") (rawFrame csv).rows :=
            convertRows_col_pres _ _ hNC dateCellConv (rawFrame csv).rows f1.rows hr1
          have p2 : colAt (csv.header.indexOf "Note/20,00") f2.rows
              = colAt (csv.header.indexOf "Note/20,00") f1.rows :=
            convertRows_col_pres _ _ hNT dateCellConv f1.rows f2.rows hr2
          have hcol := convertRows_col_ok _ scoreCellConv f2.rows f3.rows hr3
          have hmem2 : Cell.str (r.getD (csv.header.indexOf "Note/20,00") "")
              ∈ colAt (csv.header.indexOf "Note/20,00") f2.rows := by
            rw [p2, p1, colAt_rawFrame]
            exact List.mem_map_of_mem _ hrmem
          obtain ⟨c, hc⟩ := hcol _ hmem2
          exact scoreCellConv_str_ok hc

unseal Rat.mul Rat.add Rat.inv in
/-- C6: score parsing substitutes the comma with a dot and coerces to
float — `"15,50" ↦ 15.5`, `"0,00" ↦ 0`, and every `"integer,fraction"`
digit form maps to the corresponding decimal value; conversely a load
that returns success has coerced every cell of the score column, so a
cell that is not coercible this way fails the whole load. -/
theorem score_parsing_comma_decimal :
    parseScoreCell "15,50" = some ((31 : ℚ) / 2) ∧
    parseScoreCell "0,00" = some 0 ∧
    (∀ a b : String, a.data ≠ [] → b.data ≠ [] →
        a.data.all Char.isDigit = true → b.data.all Char.isDigit = true →
        parseScoreCell (a ++ "," ++ b)
          = some ((natOfDigits a.data : ℚ)
              + (natOfDigits b.data : ℚ) / (10 : ℚ) ^ b.data.length)) ∧
    (∀ (prior : Option RawFrame) (csv : Csv), (load_data prior csv).2 = .ok () →
        ∀ r ∈ csv.rows,
          (parseScoreCell (r.getD (csv.header.indexOf "Note/20,00") "")).isSome = true) :=
  ⟨by decide, by decide, parseScoreCell_comma, score_fail_aborts⟩

unseal Rat.mul Rat.add Rat.inv in
/-- Witness for C6: the generic comma form at `"15" / "50"`, and the
failure-propagation direction at a successfully loading CSV. -/
theorem score_parsing_comma_decimal_witness :
    (("15" : String).data ≠ [] ∧ ("50" : String).data.all Char.isDigit = true) ∧
    parseScoreCell ("15" ++ "," ++ "50")
      = some ((natOfDigits ("15" : String).data : ℚ)
          + (natOfDigits ("50" : String).data : ℚ) / (10 : ℚ) ^ ("50" : String).data.length) ∧
    (load_data (some priorLoadedFrame) goodCsv).2 = .ok () ∧
    (parseScoreCell
        (["Dupont", "Alice", "Terminée", "12 mars 2024 10:30:00", "12 mars 2024 11:30:00",
          "15,50"].getD (goodCsv.header.indexOf "Note/20,00") "")).isSome = true :=
  ⟨⟨by decide, by decide⟩,
   score_parsing_comma_decimal.2.2.1 "15" "50" (by decide) (by decide) (by decide) (by decide),
   by decide,
   score_parsing_comma_decimal.2.2.2 (some priorLoadedFrame) goodCsv (by decide) _ (by decide)⟩

end ArcheAnalyser
